import Mathlib

/-!
Verification of the block-level consensus verifier
(src/verification/src/constants.rs and src/verification/src/verify_block.rs).

The verifier runs seven structural checks over an already-indexed block in a
fixed order, stopping at the first failure.  The block representation, the
coinbase predicate, the serialized-size computation, the signature-operation
counter and the Merkle-root recomputation live in external crates; they are
modelled here from the specification as abstract data carried by the block
(tabulated functions and cached values), exactly as the specification
describes the consumed interface.
-/

/-- constants.rs: MAX_BLOCK_SIZE, the serialized-size ceiling in bytes. -/
def MAX_BLOCK_SIZE : Nat := 2000000

/-- constants.rs: MAX_BLOCK_SIGOPS, derived as MAX_BLOCK_SIZE/50. -/
def MAX_BLOCK_SIGOPS : Nat := MAX_BLOCK_SIZE / 50

/-- Modelled from the spec: the output-resolution context consumed by the
external sigops counter (duplex_store crate, not under src/).  A context maps
an abstract previous-output reference to an optionally resolved output. -/
def PreviousTransactionOutputProvider : Type := Nat → Option Nat

/-- Modelled from the spec: NoopStore (duplex_store crate, not under src/),
the context that resolves zero outputs. -/
def NoopStore : PreviousTransactionOutputProvider := fun _ => none

/-- Modelled from the spec: a raw transaction of the external chain crate
(not under src/).  The verifier consumes it only through the coinbase
predicate and the external sigops counter, so those two observations are
tabulated as fields. -/
structure Transaction where
  is_coinbase : Bool
  sigops_of : PreviousTransactionOutputProvider → Bool → Nat

/-- Modelled from the spec: the external sigops counting primitive
(sigops crate, not under src/), of signature
(transaction, output-resolution context, redeem-script-aware flag) to a
non-negative integer. -/
def transaction_sigops (tx : Transaction) (store : PreviousTransactionOutputProvider)
    (bip16_active : Bool) : Nat :=
  tx.sigops_of store bip16_active

/-- Modelled from the spec: an indexed transaction of the chain crate pairs a
raw transaction with its precomputed identity hash. -/
structure IndexedTransaction where
  raw : Transaction
  hash : Nat

/-- Modelled from the spec: the raw block header exposes a claimed
Merkle-root value. -/
structure BlockHeader where
  merkle_root_hash : Nat

/-- Modelled from the spec: the indexed block header wraps the raw header. -/
structure IndexedBlockHeader where
  raw : BlockHeader

/-- Modelled from the spec: an indexed block exposes a header, an ordered
transaction sequence, and the total serialized size in bytes (a derived,
possibly-cached value produced by the external canonical serialization). -/
structure IndexedBlock where
  header : IndexedBlockHeader
  transactions : List IndexedTransaction
  size : Nat

/-- Modelled from the spec: one level of the canonical Merkle construction,
pairwise hashing adjacent entries with the standard duplication rule for
odd-length levels.  The pairwise hash itself (double SHA-256 of the
concatenation) is an external primitive, kept abstract as pair_hash. -/
def merkle_level (pair_hash : Nat → Nat → Nat) : List Nat → List Nat
  | [] => []
  | [a] => [pair_hash a a]
  | a :: b :: rest => pair_hash a b :: merkle_level pair_hash rest

/-- Modelled from the spec: the canonical binary-tree Merkle root of a hash
sequence, folding levels until one hash remains.  The fuel argument bounds
the number of levels; it is always instantiated with the sequence length,
which dominates the level count since every level strictly shrinks a
sequence of two or more hashes. -/
def merkle_root_aux (pair_hash : Nat → Nat → Nat) : Nat → List Nat → Nat
  | _, [] => 0
  | _, [a] => a
  | 0, _ => 0
  | fuel + 1, l => merkle_root_aux pair_hash fuel (merkle_level pair_hash l)

/-- Modelled from the spec: the Merkle root recomputed from a transaction
hash sequence by the external chain crate. -/
def merkle_root (pair_hash : Nat → Nat → Nat) (hashes : List Nat) : Nat :=
  merkle_root_aux pair_hash hashes.length hashes

/-- Modelled from the spec: IndexedBlock::merkle_root of the chain crate, the
root recomputed from the current transaction hash sequence.  The body inlines
merkle_root applied to the hash sequence (the short name inside this
declaration would resolve to the declaration itself). -/
def IndexedBlock.merkle_root (pair_hash : Nat → Nat → Nat) (block : IndexedBlock) : Nat :=
  merkle_root_aux pair_hash (block.transactions.map IndexedTransaction.hash).length
    (block.transactions.map IndexedTransaction.hash)

/-- error.rs is not under src/; following the error taxonomy of the spec,
restricted to the sub-kind this verifier produces. -/
inductive TransactionError where
  | MisplacedCoinbase
deriving DecidableEq

/-- error.rs is not under src/; following the error taxonomy of the spec,
one variant per rule.  Error.Coinbase is the MissingOrMisplacedCoinbase
outcome of the taxonomy (position 0 not a coinbase), as produced at
verify_block.rs line 101. -/
inductive Error where
  | Empty
  | Coinbase
  | Size (size : Nat)
  | Transaction (index : Nat) (err : TransactionError)
  | DuplicatedTransactions
  | MaximumSigops
  | MerkleRoot
deriving DecidableEq

/-- Translation of Iterator::position used at verify_block.rs line 120: the
index of the first element satisfying the predicate, if any. -/
def position {α : Type} (p : α → Bool) : List α → Option Nat
  | [] => none
  | a :: l => if p a then some 0 else Option.map (fun n => n + 1) (position p l)

/-- BlockEmpty::check (verify_block.rs lines 54-60). -/
def BlockEmpty.check (block : IndexedBlock) : Except Error Unit :=
  if block.transactions.isEmpty then Except.error Error.Empty else Except.ok ()

/-- BlockSerializedSize::check (verify_block.rs lines 76-83). -/
def BlockSerializedSize.check (block : IndexedBlock) (max_size : Nat) : Except Error Unit :=
  if block.size > max_size then Except.error (Error.Size block.size) else Except.ok ()

/-- BlockCoinbase::check (verify_block.rs lines 97-103). -/
def BlockCoinbase.check (block : IndexedBlock) : Except Error Unit :=
  if (block.transactions.head?.map (fun tx => tx.raw.is_coinbase)).getD false then
    Except.ok ()
  else
    Except.error Error.Coinbase

/-- BlockExtraCoinbases::check (verify_block.rs lines 117-126): scan the
transactions after position 0 for the first coinbase. -/
def BlockExtraCoinbases.check (block : IndexedBlock) : Except Error Unit :=
  match position (fun tx => tx.raw.is_coinbase) (block.transactions.drop 1) with
  | some index => Except.error (Error.Transaction (index + 1) TransactionError.MisplacedCoinbase)
  | none => Except.ok ()

/-- BlockTransactionsUniqueness::check (verify_block.rs lines 140-147): the
cardinality of the hash set is the length of the deduplicated hash list. -/
def BlockTransactionsUniqueness.check (block : IndexedBlock) : Except Error Unit :=
  if ((block.transactions.map IndexedTransaction.hash).dedup).length
      = block.transactions.length then
    Except.ok ()
  else
    Except.error Error.DuplicatedTransactions

/-- BlockSigops::check (verify_block.rs lines 163-174): sum the external
sigops count of every transaction, invoked with NoopStore and bip16 disabled. -/
def BlockSigops.check (block : IndexedBlock) (max_sigops : Nat) : Except Error Unit :=
  if (block.transactions.map (fun tx => transaction_sigops tx.raw NoopStore false)).sum
      > max_sigops then
    Except.error Error.MaximumSigops
  else
    Except.ok ()

/-- BlockMerkleRoot::check (verify_block.rs lines 188-194). -/
def BlockMerkleRoot.check (pair_hash : Nat → Nat → Nat) (block : IndexedBlock) :
    Except Error Unit :=
  if IndexedBlock.merkle_root pair_hash block = block.header.raw.merkle_root_hash then
    Except.ok ()
  else
    Except.error Error.MerkleRoot

/-- The BlockVerifier struct (verify_block.rs lines 8-16) holds each check
bound to the block and, where relevant, a bound parameter; the two bounds
are the only data beyond the shared block reference, so the verifier state
is flattened to them. -/
structure BlockVerifier where
  max_size : Nat
  max_sigops : Nat

/-- BlockVerifier::new (verify_block.rs lines 19-29): binds the size check to
MAX_BLOCK_SIZE and the sigops check to MAX_BLOCK_SIGOPS. -/
def BlockVerifier.new : BlockVerifier :=
  ⟨MAX_BLOCK_SIZE, MAX_BLOCK_SIGOPS⟩

/-- BlockVerifier::check (verify_block.rs lines 31-40): the seven checks in
order, each behind try!, so the chain short-circuits at the first error. -/
def BlockVerifier.check (v : BlockVerifier) (pair_hash : Nat → Nat → Nat)
    (block : IndexedBlock) : Except Error Unit :=
  Except.bind (BlockEmpty.check block) (fun _ =>
  Except.bind (BlockCoinbase.check block) (fun _ =>
  Except.bind (BlockSerializedSize.check block v.max_size) (fun _ =>
  Except.bind (BlockExtraCoinbases.check block) (fun _ =>
  Except.bind (BlockTransactionsUniqueness.check block) (fun _ =>
  Except.bind (BlockSigops.check block v.max_sigops) (fun _ =>
  Except.bind (BlockMerkleRoot.check pair_hash block) (fun _ =>
  Except.ok ())))))))

/-- The first failure of a list of check outcomes, success when all succeed:
the fail-fast aggregation the spec describes for the verifier. -/
def firstFailure : List (Except Error Unit) → Except Error Unit
  | [] => Except.ok ()
  | Except.ok _ :: rest => firstFailure rest
  | Except.error e :: _ => Except.error e

/-- The seven constituent checks in the fixed order of the spec:
non-emptiness, coinbase position, serialized size, no extra coinbases,
transaction-hash uniqueness, sigops budget, Merkle root. -/
def BlockVerifier.checksInOrder (v : BlockVerifier) (pair_hash : Nat → Nat → Nat)
    (block : IndexedBlock) : List (Except Error Unit) :=
  [BlockEmpty.check block,
   BlockCoinbase.check block,
   BlockSerializedSize.check block v.max_size,
   BlockExtraCoinbases.check block,
   BlockTransactionsUniqueness.check block,
   BlockSigops.check block v.max_sigops,
   BlockMerkleRoot.check pair_hash block]

/-- Short-circuiting bind over a check outcome agrees with prepending the
outcome to a fail-fast list. -/
theorem bind_firstFailure (c : Except Error Unit) (cs : List (Except Error Unit)) :
    Except.bind c (fun _ => firstFailure cs) = firstFailure (c :: cs) := by
  cases c with
  | ok a => rfl
  | error e => rfl

/-- The fail-fast aggregation succeeds exactly when every listed outcome is a
success. -/
theorem firstFailure_eq_ok_iff (l : List (Except Error Unit)) :
    firstFailure l = Except.ok () ↔ ∀ c ∈ l, c = Except.ok () := by
  induction l with
  | nil => simp [firstFailure]
  | cons c cs ih =>
    cases c with
    | ok a =>
      cases a
      simp [firstFailure, ih]
    | error e => simp [firstFailure]

/-- C1: BlockVerifier::check returns success if and only if all seven
constituent checks succeed, and equals the fail-fast fold of the checks in
the fixed order non-emptiness, coinbase position, serialized size, no extra
coinbases, transaction-hash uniqueness, sigops budget, Merkle root, so the
first failing check determines the single returned error and later checks
cannot influence the result. -/
theorem blockVerifier_check_fail_fast (v : BlockVerifier) (pair_hash : Nat → Nat → Nat)
    (block : IndexedBlock) :
    BlockVerifier.check v pair_hash block
      = firstFailure (BlockVerifier.checksInOrder v pair_hash block)
    ∧ (BlockVerifier.check v pair_hash block = Except.ok ()
      ↔ ∀ c ∈ BlockVerifier.checksInOrder v pair_hash block, c = Except.ok ()) := by
  have h : BlockVerifier.check v pair_hash block
      = firstFailure (BlockVerifier.checksInOrder v pair_hash block) := by
    unfold BlockVerifier.check BlockVerifier.checksInOrder
    simp only [← bind_firstFailure]
    rfl
  exact ⟨h, by rw [h]; exact firstFailure_eq_ok_iff _⟩

/-- C3: the serialized-size check fails with Size(S) exactly when the block
size S strictly exceeds the ceiling, and succeeds on a block whose size
equals the ceiling (the boundary is inclusive). -/
theorem blockSerializedSize_check_spec (block : IndexedBlock) :
    BlockSerializedSize.check block MAX_BLOCK_SIZE
      = (if block.size > MAX_BLOCK_SIZE then Except.error (Error.Size block.size)
         else Except.ok ())
    ∧ BlockSerializedSize.check ⟨block.header, block.transactions, MAX_BLOCK_SIZE⟩
        MAX_BLOCK_SIZE = Except.ok () := by
  constructor
  · rfl
  · simp [BlockSerializedSize.check]

/-- C8: on a block with an empty transaction sequence the whole verifier
yields the Empty error, whatever the other data of the block are, so no
other check can surface an error for an empty block. -/
theorem blockVerifier_check_empty (v : BlockVerifier) (pair_hash : Nat → Nat → Nat)
    (block : IndexedBlock) (h : block.transactions = []) :
    BlockVerifier.check v pair_hash block = Except.error Error.Empty := by
  unfold BlockVerifier.check
  simp [BlockEmpty.check, h, Except.bind]

/-- A concrete pairwise hash standing in for the external double SHA-256. -/
def w_pair_hash : Nat → Nat → Nat := fun a b => 2 * a + 3 * b + 1

/-- A concrete block with no transactions. -/
def emptyBlock : IndexedBlock := ⟨⟨⟨0⟩⟩, [], 80⟩

/-- Witness for C8 at a concrete empty block. -/
theorem blockVerifier_check_empty_witness :
    BlockVerifier.check BlockVerifier.new w_pair_hash emptyBlock = Except.error Error.Empty :=
  blockVerifier_check_empty BlockVerifier.new w_pair_hash emptyBlock rfl

/-- C9: the sigops ceiling is derived from the size ceiling, MAX_BLOCK_SIGOPS
being MAX_BLOCK_SIZE / 50 = 40000 with MAX_BLOCK_SIZE = 2000000, and the
verifier constructed by BlockVerifier::new binds its sigops check to exactly
this derived constant. -/
theorem max_block_sigops_derived :
    MAX_BLOCK_SIGOPS = MAX_BLOCK_SIZE / 50
    ∧ MAX_BLOCK_SIZE = 2000000
    ∧ MAX_BLOCK_SIGOPS = 40000
    ∧ BlockVerifier.new.max_sigops = MAX_BLOCK_SIGOPS
    ∧ BlockVerifier.new.max_sigops = MAX_BLOCK_SIZE / 50
    ∧ BlockVerifier.new.max_size = MAX_BLOCK_SIZE :=
  ⟨rfl, rfl, by decide, rfl, by decide, rfl⟩

/-- The block-level Merkle recomputation is merkle_root applied to the
transaction hash sequence. -/
theorem indexedBlock_merkle_root_eq (pair_hash : Nat → Nat → Nat) (block : IndexedBlock) :
    IndexedBlock.merkle_root pair_hash block
      = merkle_root pair_hash (block.transactions.map IndexedTransaction.hash) := rfl

/-- C2: the Merkle-root check fails with the MerkleRoot error exactly when
the recomputed root differs from the root claimed in the header, succeeds
when they agree, and the recomputed root is a pure function of the
transaction hash sequence. -/
theorem blockMerkleRoot_check_spec (pair_hash : Nat → Nat → Nat) (block : IndexedBlock) :
    (IndexedBlock.merkle_root pair_hash block ≠ block.header.raw.merkle_root_hash →
      BlockMerkleRoot.check pair_hash block = Except.error Error.MerkleRoot)
    ∧ (IndexedBlock.merkle_root pair_hash block = block.header.raw.merkle_root_hash →
      BlockMerkleRoot.check pair_hash block = Except.ok ())
    ∧ (∀ other : IndexedBlock,
        block.transactions.map IndexedTransaction.hash
          = other.transactions.map IndexedTransaction.hash →
        IndexedBlock.merkle_root pair_hash block
          = IndexedBlock.merkle_root pair_hash other) := by
  refine ⟨fun h => ?_, fun h => ?_, fun other h => ?_⟩
  · unfold BlockMerkleRoot.check
    rw [if_neg h]
  · unfold BlockMerkleRoot.check
    rw [if_pos h]
  · unfold IndexedBlock.merkle_root
    rw [h]

/-- A concrete single-transaction block whose header claims a root different
from the recomputed one. -/
def mismatchBlock : IndexedBlock := ⟨⟨⟨9⟩⟩, [⟨⟨true, fun _ _ => 0⟩, 5⟩], 100⟩

/-- Witness for C2 at a concrete block with a wrong claimed root. -/
theorem blockMerkleRoot_check_spec_witness :
    BlockMerkleRoot.check w_pair_hash mismatchBlock = Except.error Error.MerkleRoot :=
  (blockMerkleRoot_check_spec w_pair_hash mismatchBlock).1 (by decide)

/-- C4: the sigops check sums, over all transactions, the external count
taken with the zero-resolution context NoopStore and the redeem-script-aware
flag false; it fails with MaximumSigops exactly when the sum strictly
exceeds the bound and succeeds when the sum equals the bound, and NoopStore
indeed resolves no output. -/
theorem blockSigops_check_spec (block : IndexedBlock) :
    BlockSigops.check block MAX_BLOCK_SIGOPS
      = (if (block.transactions.map
            (fun tx => transaction_sigops tx.raw NoopStore false)).sum > MAX_BLOCK_SIGOPS
         then Except.error Error.MaximumSigops
         else Except.ok ())
    ∧ ((block.transactions.map (fun tx => transaction_sigops tx.raw NoopStore false)).sum
          = MAX_BLOCK_SIGOPS →
        BlockSigops.check block MAX_BLOCK_SIGOPS = Except.ok ())
    ∧ (∀ p : Nat, NoopStore p = none) := by
  refine ⟨rfl, fun h => ?_, fun p => rfl⟩
  unfold BlockSigops.check
  rw [h]
  simp

/-- A concrete block whose single transaction counts exactly
MAX_BLOCK_SIGOPS signature operations under the zero-resolution context. -/
def sigopsBoundBlock : IndexedBlock := ⟨⟨⟨0⟩⟩, [⟨⟨true, fun _ _ => 40000⟩, 1⟩], 100⟩

/-- Witness for C4 at a concrete block sitting exactly at the sigops bound. -/
theorem blockSigops_check_spec_witness :
    BlockSigops.check sigopsBoundBlock MAX_BLOCK_SIGOPS = Except.ok () :=
  (blockSigops_check_spec sigopsBoundBlock).2.1 (by decide)

/-- C7: on a non-empty block whose first transaction is not a coinbase the
coinbase check yields the Coinbase error (MissingOrMisplacedCoinbase of the
taxonomy), an error distinct from the emptiness error. -/
theorem blockCoinbase_check_not_coinbase (block : IndexedBlock) (t0 : IndexedTransaction)
    (rest : List IndexedTransaction) (h : block.transactions = t0 :: rest)
    (hcb : t0.raw.is_coinbase = false) :
    BlockCoinbase.check block = Except.error Error.Coinbase
    ∧ Error.Coinbase ≠ Error.Empty := by
  refine ⟨?_, by decide⟩
  unfold BlockCoinbase.check
  rw [h]
  simp [hcb]

/-- A concrete non-coinbase transaction. -/
def nonCbTx : Transaction := ⟨false, fun _ _ => 0⟩

/-- A concrete block whose only transaction is not a coinbase. -/
def nonCbBlock : IndexedBlock := ⟨⟨⟨0⟩⟩, [⟨nonCbTx, 7⟩], 100⟩

/-- Witness for C7 at a concrete block with a non-coinbase first transaction. -/
theorem blockCoinbase_check_not_coinbase_witness :
    BlockCoinbase.check nonCbBlock = Except.error Error.Coinbase
    ∧ Error.Coinbase ≠ Error.Empty :=
  blockCoinbase_check_not_coinbase nonCbBlock ⟨nonCbTx, 7⟩ [] rfl rfl

/-- position returns the first index at which the predicate holds: if the
predicate holds at index k and fails at every earlier index, the scan
reports k. -/
theorem position_eq_some_of_first {α : Type} (p : α → Bool) (l : List α) :
    ∀ (k : Nat) (hk : k < l.length),
      p (l.get ⟨k, hk⟩) = true →
      (∀ (j : Nat) (hj : j < l.length), j < k → p (l.get ⟨j, hj⟩) = false) →
      position p l = some k := by
  induction l with
  | nil =>
    intro k hk hpk hmin
    simp at hk
  | cons a t ih =>
    intro k hk hpk hmin
    cases k with
    | zero =>
      have ha : p a = true := hpk
      simp [position, ha]
    | succ k =>
      have ha : p a = false := hmin 0 (Nat.succ_pos _) (Nat.succ_pos _)
      have hk2 : k < t.length := Nat.lt_of_succ_lt_succ hk
      have hpk2 : p (t.get ⟨k, hk2⟩) = true := hpk
      have hmin2 : ∀ (j : Nat) (hj : j < t.length), j < k → p (t.get ⟨j, hj⟩) = false :=
        fun j hj hjk => hmin (j + 1) (Nat.succ_lt_succ hj) (Nat.succ_lt_succ hjk)
      have hrec := ih k hk2 hpk2 hmin2
      simp [position, ha, hrec]

/-- C6: when the earliest coinbase at a non-zero position of the block sits
at index i, the extra-coinbases check fails with MisplacedCoinbase reporting
exactly that index i. -/
theorem blockExtraCoinbases_check_first (block : IndexedBlock) (i : Nat)
    (hi0 : 0 < i) (hi : i < block.transactions.length)
    (hc : (block.transactions.get ⟨i, hi⟩).raw.is_coinbase = true)
    (hmin : ∀ (j : Nat) (hj : j < block.transactions.length),
      0 < j → j < i → (block.transactions.get ⟨j, hj⟩).raw.is_coinbase = false) :
    BlockExtraCoinbases.check block
      = Except.error (Error.Transaction i TransactionError.MisplacedCoinbase) := by
  obtain ⟨hdr, txs, sz⟩ := block
  revert hi hc hmin
  cases txs with
  | nil =>
    intro hi hc hmin
    simp at hi
  | cons t0 rest =>
    intro hi hc hmin
    obtain ⟨k, rfl⟩ : ∃ k, i = k + 1 := ⟨i - 1, by omega⟩
    have hk : k < rest.length := by
      have hlen := hi
      simp only [List.length_cons] at hlen
      omega
    have hc2 : (rest.get ⟨k, hk⟩).raw.is_coinbase = true := hc
    have hmin2 : ∀ (j : Nat) (hj : j < rest.length), j < k →
        (rest.get ⟨j, hj⟩).raw.is_coinbase = false :=
      fun j hj hjk => hmin (j + 1) (Nat.succ_lt_succ hj) (Nat.succ_pos _) (Nat.succ_lt_succ hjk)
    have hpos := position_eq_some_of_first (fun tx => tx.raw.is_coinbase) rest k hk hc2 hmin2
    simp [BlockExtraCoinbases.check, hpos]

/-- A concrete coinbase transaction. -/
def cbTx : Transaction := ⟨true, fun _ _ => 1⟩

/-- A concrete block with a coinbase at position 0, a plain transaction at
position 1, and a misplaced coinbase at position 2. -/
def c6Block : IndexedBlock :=
  ⟨⟨⟨0⟩⟩, [⟨cbTx, 1⟩, ⟨nonCbTx, 2⟩, ⟨cbTx, 3⟩], 100⟩

/-- Witness for C6 at a concrete block whose first misplaced coinbase is at
index 2. -/
theorem blockExtraCoinbases_check_first_witness :
    BlockExtraCoinbases.check c6Block
      = Except.error (Error.Transaction 2 TransactionError.MisplacedCoinbase) :=
  blockExtraCoinbases_check_first c6Block 2 (by decide) (by decide) (by decide) (by decide)

/-- C5: a block with two transactions of identical identity hashes at any two
distinct positions fails the uniqueness check with DuplicatedTransactions. -/
theorem blockTransactionsUniqueness_check_dup (block : IndexedBlock) (i j : Nat)
    (hi : i < block.transactions.length) (hj : j < block.transactions.length)
    (hne : i ≠ j)
    (hh : (block.transactions.get ⟨i, hi⟩).hash = (block.transactions.get ⟨j, hj⟩).hash) :
    BlockTransactionsUniqueness.check block = Except.error Error.DuplicatedTransactions := by
  have hiL : i < (block.transactions.map IndexedTransaction.hash).length := by
    simpa using hi
  have hjL : j < (block.transactions.map IndexedTransaction.hash).length := by
    simpa using hj
  have hget : (block.transactions.map IndexedTransaction.hash).get ⟨i, hiL⟩
      = (block.transactions.map IndexedTransaction.hash).get ⟨j, hjL⟩ := by
    rw [List.get_map, List.get_map]
    exact hh
  have hnodup : ¬ (block.transactions.map IndexedTransaction.hash).Nodup := by
    intro hnd
    have hfin := (List.Nodup.get_inj_iff hnd).mp hget
    exact hne (congrArg Fin.val hfin)
  have hcond : ((block.transactions.map IndexedTransaction.hash).dedup).length
      ≠ block.transactions.length := by
    intro he
    apply hnodup
    have hde : (block.transactions.map IndexedTransaction.hash).dedup
        = block.transactions.map IndexedTransaction.hash :=
      (List.dedup_sublist _).eq_of_length (by simpa using he)
    rw [← hde]
    exact List.nodup_dedup _
  unfold BlockTransactionsUniqueness.check
  rw [if_neg hcond]

/-- A concrete block whose two transactions share the identity hash 4. -/
def c5Block : IndexedBlock := ⟨⟨⟨0⟩⟩, [⟨cbTx, 4⟩, ⟨nonCbTx, 4⟩], 100⟩

/-- Witness for C5 at a concrete block with a duplicated hash. -/
theorem blockTransactionsUniqueness_check_dup_witness :
    BlockTransactionsUniqueness.check c5Block = Except.error Error.DuplicatedTransactions :=
  blockTransactionsUniqueness_check_dup c5Block 0 1 (by decide) (by decide) (by decide) rfl

/-- C10: on a block within the size bound whose transactions start with a
coinbase followed by a second coinbase, the whole verifier as constructed by
BlockVerifier::new yields MisplacedCoinbase at index 1, an error distinct
from DuplicatedTransactions, because the extra-coinbases check runs before
the uniqueness check. -/
theorem blockVerifier_check_double_coinbase (pair_hash : Nat → Nat → Nat)
    (block : IndexedBlock) (t0 t1 : IndexedTransaction) (rest : List IndexedTransaction)
    (htx : block.transactions = t0 :: t1 :: rest)
    (h0 : t0.raw.is_coinbase = true) (h1 : t1.raw.is_coinbase = true)
    (hsize : block.size ≤ MAX_BLOCK_SIZE) :
    BlockVerifier.check BlockVerifier.new pair_hash block
      = Except.error (Error.Transaction 1 TransactionError.MisplacedCoinbase)
    ∧ Error.Transaction 1 TransactionError.MisplacedCoinbase
      ≠ Error.DuplicatedTransactions := by
  refine ⟨?_, by decide⟩
  have he : BlockEmpty.check block = Except.ok () := by
    unfold BlockEmpty.check
    rw [htx]
    rfl
  have hcb : BlockCoinbase.check block = Except.ok () := by
    unfold BlockCoinbase.check
    rw [htx]
    simp [h0]
  have hsz : BlockSerializedSize.check block MAX_BLOCK_SIZE = Except.ok () := by
    unfold BlockSerializedSize.check
    rw [if_neg (Nat.not_lt.mpr hsize)]
  have hex : BlockExtraCoinbases.check block
      = Except.error (Error.Transaction 1 TransactionError.MisplacedCoinbase) := by
    unfold BlockExtraCoinbases.check
    rw [htx]
    simp [position, h1]
  have hms : BlockVerifier.new.max_size = MAX_BLOCK_SIZE := rfl
  unfold BlockVerifier.check
  rw [hms, he, hcb, hsz, hex]
  rfl

/-- A concrete block within the size bound holding two byte-identical
coinbase transactions. -/
def c10Block : IndexedBlock := ⟨⟨⟨0⟩⟩, [⟨cbTx, 4⟩, ⟨cbTx, 4⟩], 100⟩

/-- Witness for C10 at a concrete block duplicating its coinbase. -/
theorem blockVerifier_check_double_coinbase_witness :
    BlockVerifier.check BlockVerifier.new w_pair_hash c10Block
      = Except.error (Error.Transaction 1 TransactionError.MisplacedCoinbase)
    ∧ Error.Transaction 1 TransactionError.MisplacedCoinbase
      ≠ Error.DuplicatedTransactions :=
  blockVerifier_check_double_coinbase w_pair_hash c10Block ⟨cbTx, 4⟩ ⟨cbTx, 4⟩ []
    rfl rfl rfl (by decide)
